import Mathlib

/-!
Shallow embedding of the ST7789 parallel display driver of this
repository (`st7789.cpp` together with its MicroPython bindings).
It covers: the framebuffer-to-back-buffer pixel conversion loop of
`ST7789::update`, the driver state machine (`display_on`,
`display_sleep`, backlight PWM duty) of `ST7789::set_backlight` and
`ST7789::init`, the bus-event traces of `ST7789::command`,
`ST7789::write_blocking_parallel` and `ST7789::update`, the clock
divisor computation of `update`, and the command/payload sequence of
`ST7789::init`.
-/

/-- Logical framebuffer width in pixels.  The bindings expose the
framebuffer as `160 * 120 * 4` bytes and the module constant `WIDTH`
is 160. -/
def WIDTH : Nat := 160

/-- Logical framebuffer height in pixels (module constant `HEIGHT`). -/
def HEIGHT : Nat := 120

/-- The pixel pack from the conversion loop of `ST7789::update`:
`((src[0] & 0b11111000) << 8) | ((src[1] & 0b11111100) << 3) | (src[2] >> 3)`
where `src[0], src[1], src[2]` are the R, G, B bytes of a framebuffer
pixel. -/
def convertPixel (r g b : Nat) : Nat :=
  ((r &&& 0xF8) <<< 8) ||| ((g &&& 0xFC) <<< 3) ||| (b >>> 3)

/-- Pointwise store into the back-buffer, modelled as a function from
16-bit-element index to value (`backbuffer[i] = v`). -/
def writeBB (bb : Nat → Nat) (i v : Nat) : Nat → Nat :=
  fun j => if j = i then v else bb j

/-- The inner loop `for(x = 0; x < width; x++)` of `ST7789::update`.
`fb` is the framebuffer as a byte array, `src` the current source byte
offset, `dst` the current back-buffer element offset, and the `Nat`
argument the number of remaining iterations.  Each iteration performs
`*(dst + width) = *dst = convertPixel(src[0], src[1], src[2])`, then
`dst++; src += 4`. -/
def innerLoop (fb : Nat → Nat) : Nat → Nat → Nat → (Nat → Nat) → (Nat → Nat)
  | _, _, 0, bb => bb
  | src, dst, n + 1, bb =>
      innerLoop fb (src + 4) (dst + 1) n
        (writeBB (writeBB bb dst (convertPixel (fb src) (fb (src + 1)) (fb (src + 2))))
          (dst + WIDTH) (convertPixel (fb src) (fb (src + 1)) (fb (src + 2))))

/-- The outer loop `for(y = 0; y < height * 2; y += 2)` of
`ST7789::update` — `HEIGHT` iterations in all.  After each inner loop
`dst` has advanced by `WIDTH`; the `dst += width` statement skips the
vertically pixel-doubled row, so each iteration advances `dst` by
`2 * WIDTH` and `src` by `4 * WIDTH`. -/
def outerLoop (fb : Nat → Nat) : Nat → Nat → Nat → (Nat → Nat) → (Nat → Nat)
  | _, _, 0, bb => bb
  | src, dst, r + 1, bb =>
      outerLoop fb (src + 4 * WIDTH) (dst + 2 * WIDTH) r (innerLoop fb src dst WIDTH bb)

/-- The whole conversion phase of `ST7789::update`: starting from
`src = (uint8_t *)framebuffer` and `dst = (uint16_t *)backbuffer`,
rewrite the back-buffer `bb`. -/
def updateBackbuffer (fb bb : Nat → Nat) : Nat → Nat :=
  outerLoop fb 0 0 HEIGHT bb

/-- Number of 16-bit elements of `uint16_t backbuffer[160 * 240]`. -/
def backbufferLen : Nat := 160 * 240

/-- The transfer count passed to
`dma_channel_set_trans_count(pd_st_dma, 160 * 240, false)` in
`ST7789::update`. -/
def updateDmaTransCount : Nat := 160 * 240

/-! Register opcodes from `enum reg` in `st7789.cpp`. -/

/-- Register opcode `SWRESET = 0x01`. -/
def SWRESET : Nat := 0x01

/-- Register opcode `TEON = 0x35`. -/
def TEON : Nat := 0x35

/-- Register opcode `MADCTL = 0x36`. -/
def MADCTL : Nat := 0x36

/-- Register opcode `COLMOD = 0x3A`. -/
def COLMOD : Nat := 0x3A

/-- Register opcode `RAMCTRL = 0xB0`. -/
def RAMCTRL : Nat := 0xB0

/-- Register opcode `GCTRL = 0xB7`. -/
def GCTRL : Nat := 0xB7

/-- Register opcode `VCOMS = 0xBB`. -/
def VCOMS : Nat := 0xBB

/-- Register opcode `LCMCTRL = 0xC0`. -/
def LCMCTRL : Nat := 0xC0

/-- Register opcode `VDVVRHEN = 0xC2`. -/
def VDVVRHEN : Nat := 0xC2

/-- Register opcode `VRHS = 0xC3`. -/
def VRHS : Nat := 0xC3

/-- Register opcode `VDVS = 0xC4`. -/
def VDVS : Nat := 0xC4

/-- Register opcode `FRCTRL2 = 0xC6`. -/
def FRCTRL2 : Nat := 0xC6

/-- Register opcode `PWCTRL1 = 0xD0`. -/
def PWCTRL1 : Nat := 0xD0

/-- Register opcode `PORCTRL = 0xB2`. -/
def PORCTRL : Nat := 0xB2

/-- Register opcode `GMCTRP1 = 0xE0`. -/
def GMCTRP1 : Nat := 0xE0

/-- Register opcode `GMCTRN1 = 0xE1`. -/
def GMCTRN1 : Nat := 0xE1

/-- Register opcode `SLPOUT = 0x11`. -/
def SLPOUT : Nat := 0x11

/-- Register opcode `DISPON = 0x29`. -/
def DISPON : Nat := 0x29

/-- Register opcode `RAMWR = 0x2C`. -/
def RAMWR : Nat := 0x2C

/-- Register opcode `INVON = 0x21`. -/
def INVON : Nat := 0x21

/-- Register opcode `CASET = 0x2A`. -/
def CASET : Nat := 0x2A

/-- Register opcode `RASET = 0x2B`. -/
def RASET : Nat := 0x2B

/-! `enum MADCTL` mode bits. -/

/-- `MADCTL::ROW_ORDER = 0b10000000`. -/
def ROW_ORDER : Nat := 0x80

/-- `MADCTL::COL_ORDER = 0b01000000`. -/
def COL_ORDER : Nat := 0x40

/-- `MADCTL::SWAP_XY = 0b00100000`. -/
def SWAP_XY : Nat := 0x20

/-- `MADCTL::SCAN_ORDER = 0b00010000`. -/
def SCAN_ORDER : Nat := 0x10

/-! Driver state machine: `display_on`, `display_sleep` and the
backlight PWM duty last written by `pwm_set_gpio_level`. -/

/-- Driver state: the two boolean members of `ST7789` that the public
operations mutate, plus the PWM duty currently applied to the
backlight pin. -/
structure DState where
  display_on : Bool
  display_sleep : Bool
  duty : Nat
deriving DecidableEq

/-- `ST7789::set_backlight(brightness)`.  The gamma encoding of the
duty is the float expression
`(uint16_t)(pow(brightness / 255.0f, 2.8) * 65535.0f + 0.5f)`; since
float `pow` is not representable exactly here, the encoding is passed
in as a function `g`.  (At `brightness = 0` the float expression is
exact: `pow(0, 2.8) = 0` and `(uint16_t)0.5f = 0`, which is the
`g 0 = 0` hypothesis used by the invariant theorems.)  Returns the
list of `(opcode, sleep_ms)` pairs issued and the new state. -/
def set_backlight (g : Nat → Nat) (s : DState) (brightness : Nat) :
    List (Nat × Nat) × DState :=
  if brightness = 0 ∧ s.display_sleep = false then
    ([(SLPOUT, 5)], ⟨s.display_on, true, g brightness⟩)
  else if s.display_sleep = true then
    ([(SLPOUT, 120)], ⟨s.display_on, false, g brightness⟩)
  else
    ([], ⟨s.display_on, s.display_sleep, g brightness⟩)

/-- The state effect of `ST7789::update`: `if(!display_on)` issue
`DISPON` and set `display_on = true`. -/
def updState (s : DState) : DState :=
  if s.display_on = false then ⟨true, s.display_sleep, s.duty⟩ else s

/-- The state effect of `ST7789::init` starting from state `s0`:
`set_backlight(0)` (before the command sequence), the command sequence
itself (no state effect), `update()`, then `set_backlight(255)`. -/
def initState (g : Nat → Nat) (s0 : DState) : DState :=
  (set_backlight g (updState (set_backlight g s0 0).2) 255).2

/-- A public driver operation invocable after construction. -/
inductive DOp where
  | updateOp
  | backlightOp (b : Nat)
deriving DecidableEq

/-- State effect of one public operation. -/
def stepOp (g : Nat → Nat) (s : DState) : DOp → DState
  | DOp.updateOp => updState s
  | DOp.backlightOp b => (set_backlight g s b).2

/-- Run a sequence of public operations. -/
def runOps (g : Nat → Nat) (s : DState) (ops : List DOp) : DState :=
  ops.foldl (stepOp g) s

/-- The invariant claimed by the spec: `display_sleep` true implies
the backlight duty is 0. -/
def sleepInv (s : DState) : Prop :=
  s.display_sleep = true → s.duty = 0

/-! Bus-event trace model of the Transfer Engine
(`command`, `write_blocking_dma`, `write_blocking_parallel`,
`update`). -/

/-- The two DMA channels of the driver. -/
inductive Chan where
  | st_dma
  | pd_st_dma
deriving DecidableEq

/-- The two PIO state-machine handles named in the driver. -/
inductive SMid where
  | parallel_sm
  | parallel_pd_sm
deriving DecidableEq

/-- Observable bus / peripheral events emitted by the driver code, in
program order. -/
inductive Ev where
  | gpioDC (v : Bool)
  | gpioCS (v : Bool)
  | dmaWaitBusy (c : Chan)
  | dmaSetCount (c : Chan) (n : Nat)
  | dmaStart (c : Chan)
  | dmaWaitF (c : Chan)
  | fifoWait (sm : SMid)
  | sleepE (ms : Nat)
  | clkdiv (d : Nat)
  | store (i : Nat)
deriving DecidableEq

/-- Whether an event is a back-buffer store of the conversion loop. -/
def Ev.isStore : Ev → Bool
  | Ev.store _ => true
  | _ => false

/-- Events of `ST7789::write_blocking_dma(src, len)`: spin while
`dma_channel_is_busy(st_dma)`, set the transfer count, then set the
read address with trigger. -/
def wbDmaTr (len : Nat) : List Ev :=
  [Ev.dmaWaitBusy Chan.st_dma, Ev.dmaSetCount Chan.st_dma len, Ev.dmaStart Chan.st_dma]

/-- Events of `ST7789::write_blocking_parallel(src, len)`:
`write_blocking_dma`, then `dma_channel_wait_for_finish_blocking` and
the TX-FIFO drain spin on `parallel_sm`. -/
def wbpTr (len : Nat) : List Ev :=
  wbDmaTr len ++ [Ev.dmaWaitF Chan.st_dma, Ev.fifoWait SMid.parallel_sm]

/-- Events of `ST7789::command(command, len, data)`: command mode,
chip-select assert, one opcode byte via `write_blocking_parallel`,
optionally data mode plus `len` payload bytes, chip-select deassert.
`p` is `none` for a null `data` pointer, `some len` otherwise. -/
def commandTr (_op : Nat) (p : Option Nat) : List Ev :=
  [Ev.gpioDC false, Ev.gpioCS false] ++ wbpTr 1 ++
    (match p with
      | some len => [Ev.gpioDC true] ++ wbpTr len
      | none => []) ++
    [Ev.gpioCS true]

/-- The back-buffer stores of the conversion loop of `ST7789::update`,
in program order: for row `r` and column `x`, `*dst` then
`*(dst + width)` with `dst = 2*r*WIDTH + x`. -/
def convStores : List Ev :=
  (List.range HEIGHT).flatMap fun r =>
    (List.range WIDTH).flatMap fun x =>
      [Ev.store (2 * r * WIDTH + x), Ev.store (2 * r * WIDTH + x + WIDTH)]

/-- Events of the `if(!display_on)` block at the top of
`ST7789::update`. -/
def dispOnEvs (display_on : Bool) : List Ev :=
  if display_on then [] else commandTr DISPON none ++ [Ev.sleepE 100]

/-- The two waits of `ST7789::update` before the conversion loop:
`dma_channel_wait_for_finish_blocking(pd_st_dma)` and the TX-FIFO
drain spin on `parallel_pd_sm`. -/
def updWaitEvs : List Ev :=
  [Ev.dmaWaitF Chan.pd_st_dma, Ev.fifoWait SMid.parallel_pd_sm]

/-- The tail of `ST7789::update` up to but excluding the triggering of
the bulk DMA transfer: command mode, chip-select assert, the `RAMWR`
byte via `write_blocking_parallel`, data mode, and the transfer count
for the bulk channel.  Note no chip-select deassert follows: the
deassert (and the bulk FIFO drain) at the end of `update` is commented
out in the source. -/
def ramwrPre : List Ev :=
  [Ev.gpioDC false, Ev.gpioCS false] ++ wbpTr 1 ++
    [Ev.gpioDC true, Ev.dmaSetCount Chan.pd_st_dma (160 * 240)]

/-- `ramwrPre` followed by the bulk DMA trigger
(`dma_channel_set_read_addr(pd_st_dma, &backbuffer, true)`), the last
event of `ST7789::update`. -/
def ramwrTail : List Ev :=
  ramwrPre ++ [Ev.dmaStart Chan.pd_st_dma]

/-- `MHZ` constant from the SDK (`50 * MHZ` is `max_pio_clk`). -/
def MHZ : Nat := 1000000

/-- `constexpr uint32_t max_pio_clk = 50 * MHZ` in `ST7789::update`. -/
def max_pio_clk : Nat := 50 * MHZ

/-- `const uint32_t clk_div = (sys_clk_hz + max_pio_clk - 1) / max_pio_clk`
in `ST7789::update`. -/
def clk_div (sys_clk_hz : Nat) : Nat :=
  (sys_clk_hz + max_pio_clk - 1) / max_pio_clk

/-- Full event trace of one `ST7789::update()` call, given the entry
value of `display_on` and the current system clock in Hz. -/
def updateTrace (display_on : Bool) (sys_clk_hz : Nat) : List Ev :=
  dispOnEvs display_on ++ [Ev.clkdiv (clk_div sys_clk_hz)] ++
    updWaitEvs ++ convStores ++ ramwrTail

/-- Chip-select protocol tracker.  State: `none` once a command has
begun (chip-select asserted) while a previous assert was never
deasserted — the violation state; `some a` with `a` the current
asserted level otherwise. -/
def csA (s : Option Bool) (e : Ev) : Option Bool :=
  match s with
  | none => none
  | some a =>
    match e, a with
    | Ev.gpioCS true, _ => some false
    | Ev.gpioCS false, true => none
    | Ev.gpioCS false, false => some true
    | _, _ => some a

/-- A trace satisfies the chip-select sequencing invariant when the
tracker never reaches the violation state starting from chip-select
deasserted. -/
def csOK (tr : List Ev) : Bool :=
  (tr.foldl csA (some false)).isSome

/-! Action-level model of the construction-time init sequence. -/

/-- One step of `ST7789::init`, at command granularity: a command with
payload bytes, a command with a null payload, a delay, the `update()`
call, or a `set_backlight` call. -/
inductive InitAct where
  | cmd (op : Nat) (data : List Nat)
  | cmdN (op : Nat)
  | sleep (ms : Nat)
  | updateA
  | backlightA (b : Nat)
deriving DecidableEq, BEq

/-- `__builtin_bswap16` on a 16-bit value. -/
def bswap16 (v : Nat) : Nat :=
  (v % 256) * 256 + (v / 256) % 256

/-- The two bytes of a `uint16_t` as laid out in memory on the
little-endian RP2350 and passed to `command` as `(char *)`. -/
def le16 (v : Nat) : List Nat :=
  [v % 256, (v / 256) % 256]

/-- The full `ST7789::init` sequence, in program order (GPIO / PWM pin
setup omitted: it issues no panel commands). -/
def initTrace : List InitAct :=
  [InitAct.backlightA 0,
   InitAct.cmdN SWRESET,
   InitAct.sleep 150,
   InitAct.cmdN TEON,
   InitAct.cmd COLMOD [0x05],
   InitAct.cmd PORCTRL [0x0c, 0x0c, 0x00, 0x33, 0x33],
   InitAct.cmd LCMCTRL [0x2c],
   InitAct.cmd VDVVRHEN [0x01],
   InitAct.cmd VRHS [0x12],
   InitAct.cmd VDVS [0x20],
   InitAct.cmd PWCTRL1 [0xa4, 0xa1],
   InitAct.cmd FRCTRL2 [0x0f],
   InitAct.cmd RAMCTRL [0x00, 0xc0],
   InitAct.cmd GCTRL [0x35],
   InitAct.cmd VCOMS [0x1f],
   InitAct.cmd GMCTRP1 [0xD0, 0x08, 0x11, 0x08, 0x0C, 0x15, 0x39, 0x33, 0x50, 0x36, 0x13, 0x14, 0x29, 0x2D],
   InitAct.cmd GMCTRN1 [0xD0, 0x08, 0x10, 0x08, 0x06, 0x06, 0x39, 0x44, 0x51, 0x0B, 0x16, 0x14, 0x2F, 0x31],
   InitAct.cmdN INVON,
   InitAct.cmdN SLPOUT,
   InitAct.cmdN DISPON,
   InitAct.sleep 100,
   InitAct.cmd CASET (le16 (bswap16 0) ++ le16 (bswap16 319)),
   InitAct.cmd RASET (le16 (bswap16 0) ++ le16 (bswap16 239)),
   InitAct.cmd MADCTL [ROW_ORDER ||| SWAP_XY ||| SCAN_ORDER],
   InitAct.updateA,
   InitAct.backlightA 255]

/-- The final steps of init in the order the claim states them:
`MADCTL` before the address-window commands. -/
def c6ClaimTail : List InitAct :=
  [InitAct.cmdN DISPON,
   InitAct.sleep 100,
   InitAct.cmd MADCTL [0xB0],
   InitAct.cmd CASET [0x00, 0x00, 0x01, 0x3F],
   InitAct.cmd RASET [0x00, 0x00, 0x00, 0xEF],
   InitAct.updateA,
   InitAct.backlightA 255]

/-- The final steps of init in the order the code performs them:
`CASET`, `RASET`, then `MADCTL`. -/
def c6CodeTail : List InitAct :=
  [InitAct.cmdN DISPON,
   InitAct.sleep 100,
   InitAct.cmd CASET [0x00, 0x00, 0x01, 0x3F],
   InitAct.cmd RASET [0x00, 0x00, 0x00, 0xEF],
   InitAct.cmd MADCTL [0xB0],
   InitAct.updateA,
   InitAct.backlightA 255]

/-! Concrete inputs used by witnesses. -/

/-- A concrete gamma encoding with `gEx 0 = 0`, matching the exact
value the float expression takes at brightness 0. -/
def gEx : Nat → Nat :=
  fun b => if b = 0 then 0 else 65535

/-- A framebuffer whose every pixel is solid red `(255, 0, 0, 0)`. -/
def fbRed : Nat → Nat :=
  fun i => if i % 4 = 0 then 255 else 0

/-- An all-zero initial back-buffer. -/
def bbZero : Nat → Nat :=
  fun _ => 0

/-! Theorems. -/

/-- Positions below `dst` are untouched by the inner loop: every store
of the loop is at `dst + j` or `dst + WIDTH + j` with `j < n`. -/
theorem innerLoop_frame (fb : Nat → Nat) (n : Nat) :
    ∀ (src dst : Nat) (bb : Nat → Nat) (p : Nat),
      (∀ j, j < n → p ≠ dst + j ∧ p ≠ dst + WIDTH + j) →
      innerLoop fb src dst n bb p = bb p := by
  induction n with
  | zero => intro src dst bb p _; rfl
  | succ m ih =>
    intro src dst bb p hp
    have h0 := hp 0 (by omega)
    have hrec : ∀ j, j < m → p ≠ (dst + 1) + j ∧ p ≠ (dst + 1) + WIDTH + j := by
      intro j hj
      have h := hp (j + 1) (by omega)
      constructor <;> omega
    simp only [innerLoop]
    rw [ih (src + 4) (dst + 1) _ p hrec]
    simp only [writeBB]
    rw [if_neg (by omega), if_neg (by omega)]

/-- Values written by the inner loop: iteration `i` writes the
converted pixel of source offset `src + 4 * i` to `dst + i` and to
`dst + WIDTH + i`. -/
theorem innerLoop_get (fb : Nat → Nat) (n : Nat) :
    ∀ (src dst : Nat) (bb : Nat → Nat) (i : Nat), i < n → n ≤ WIDTH →
      innerLoop fb src dst n bb (dst + i)
          = convertPixel (fb (src + 4 * i)) (fb (src + 4 * i + 1)) (fb (src + 4 * i + 2)) ∧
      innerLoop fb src dst n bb (dst + WIDTH + i)
          = convertPixel (fb (src + 4 * i)) (fb (src + 4 * i + 1)) (fb (src + 4 * i + 2)) := by
  have hW : WIDTH = 160 := rfl
  induction n with
  | zero => intro src dst bb i hi _; omega
  | succ m ih =>
    intro src dst bb i hi hn
    simp only [innerLoop]
    cases i with
    | zero =>
      simp only [Nat.mul_zero, Nat.add_zero]
      constructor
      · rw [innerLoop_frame fb m (src + 4) (dst + 1) _ dst (by intro j hj; omega)]
        have hne : dst ≠ dst + WIDTH := by omega
        simp [writeBB, hne]
      · rw [innerLoop_frame fb m (src + 4) (dst + 1) _ (dst + WIDTH) (by intro j hj; omega)]
        simp [writeBB]
    | succ j =>
      have hj : j < m := by omega
      have hm : m ≤ WIDTH := by omega
      have h := ih (src + 4) (dst + 1)
        (writeBB (writeBB bb dst (convertPixel (fb src) (fb (src + 1)) (fb (src + 2))))
          (dst + WIDTH) (convertPixel (fb src) (fb (src + 1)) (fb (src + 2)))) j hj hm
      have e1 : dst + (j + 1) = (dst + 1) + j := by omega
      have e2 : dst + WIDTH + (j + 1) = (dst + 1) + WIDTH + j := by omega
      have e3 : src + 4 * (j + 1) = (src + 4) + 4 * j := by omega
      rw [e1, e2, e3]
      exact h

/-- Positions below `dst` are untouched by the outer loop. -/
theorem outerLoop_frame (fb : Nat → Nat) (rows : Nat) :
    ∀ (src dst : Nat) (bb : Nat → Nat) (p : Nat), p < dst →
      outerLoop fb src dst rows bb p = bb p := by
  induction rows with
  | zero => intro src dst bb p _; rfl
  | succ R ih =>
    intro src dst bb p hp
    simp only [outerLoop]
    rw [ih (src + 4 * WIDTH) (dst + 2 * WIDTH) _ p (by omega)]
    exact innerLoop_frame fb WIDTH src dst bb p (by intro j hj; omega)

/-- Values written by the outer loop: row `r` column `i` lands at
`dst + 2*r*WIDTH + i` and at `dst + 2*r*WIDTH + WIDTH + i`, converted
from source byte offset `src + 4 * (r * WIDTH + i)`. -/
theorem outerLoop_get (fb : Nat → Nat) (rows : Nat) :
    ∀ (src dst : Nat) (bb : Nat → Nat) (r i : Nat), r < rows → i < WIDTH →
      outerLoop fb src dst rows bb (dst + 2 * r * WIDTH + i)
          = convertPixel (fb (src + 4 * (r * WIDTH + i))) (fb (src + 4 * (r * WIDTH + i) + 1))
              (fb (src + 4 * (r * WIDTH + i) + 2)) ∧
      outerLoop fb src dst rows bb (dst + 2 * r * WIDTH + WIDTH + i)
          = convertPixel (fb (src + 4 * (r * WIDTH + i))) (fb (src + 4 * (r * WIDTH + i) + 1))
              (fb (src + 4 * (r * WIDTH + i) + 2)) := by
  have hW : WIDTH = 160 := rfl
  induction rows with
  | zero => intro src dst bb r i hr _; omega
  | succ R ih =>
    intro src dst bb r i hr hi
    simp only [outerLoop]
    cases r with
    | zero =>
      have e1 : dst + 2 * 0 * WIDTH + i = dst + i := by omega
      have e2 : dst + 2 * 0 * WIDTH + WIDTH + i = dst + WIDTH + i := by omega
      have e3 : 0 * WIDTH + i = i := by omega
      rw [e1, e2, e3]
      have h := innerLoop_get fb WIDTH src dst bb i hi (Nat.le_refl WIDTH)
      constructor
      · rw [outerLoop_frame fb R (src + 4 * WIDTH) (dst + 2 * WIDTH) _ (dst + i) (by omega)]
        exact h.1
      · rw [outerLoop_frame fb R (src + 4 * WIDTH) (dst + 2 * WIDTH) _ (dst + WIDTH + i) (by omega)]
        exact h.2
    | succ q =>
      have hq : q < R := by omega
      have h := ih (src + 4 * WIDTH) (dst + 2 * WIDTH) (innerLoop fb src dst WIDTH bb) q i hq hi
      have e1 : dst + 2 * (q + 1) * WIDTH + i = (dst + 2 * WIDTH) + 2 * q * WIDTH + i := by
        rw [hW]; omega
      have e2 : dst + 2 * (q + 1) * WIDTH + WIDTH + i
          = (dst + 2 * WIDTH) + 2 * q * WIDTH + WIDTH + i := by
        rw [hW]; omega
      have e3 : src + 4 * ((q + 1) * WIDTH + i) = (src + 4 * WIDTH) + 4 * (q * WIDTH + i) := by
        rw [hW]; omega
      rw [e1, e2, e3]
      exact h

/-- C1: for every source pixel at row `y < 120`, column `x < 160`,
with channel bytes `(R, G, B)` at framebuffer byte offset
`4 * (y * WIDTH + x)`, `update()` writes
`((R & 0xF8) << 8) | ((G & 0xFC) << 3) | (B >> 3)` into the
back-buffer at element `2*y*WIDTH + x` (row `2y`) and at element
`(2*y+1)*WIDTH + x` (row `2y+1`, i.e. offset plus `WIDTH`): each
source row is duplicated into two consecutive destination rows. -/
theorem c1_update_pixel_doubling (fb bb : Nat → Nat) (y x : Nat)
    (hy : y < HEIGHT) (hx : x < WIDTH) :
    updateBackbuffer fb bb (2 * y * WIDTH + x)
        = convertPixel (fb (4 * (y * WIDTH + x))) (fb (4 * (y * WIDTH + x) + 1))
            (fb (4 * (y * WIDTH + x) + 2)) ∧
    updateBackbuffer fb bb ((2 * y + 1) * WIDTH + x)
        = convertPixel (fb (4 * (y * WIDTH + x))) (fb (4 * (y * WIDTH + x) + 1))
            (fb (4 * (y * WIDTH + x) + 2)) := by
  have hW : WIDTH = 160 := rfl
  have h := outerLoop_get fb HEIGHT 0 0 bb y x hy hx
  have e1 : 0 + 2 * y * WIDTH + x = 2 * y * WIDTH + x := by omega
  have e2 : 0 + 2 * y * WIDTH + WIDTH + x = (2 * y + 1) * WIDTH + x := by rw [hW]; omega
  have e3 : 0 + 4 * (y * WIDTH + x) = 4 * (y * WIDTH + x) := by omega
  rw [e1, e2, e3] at h
  exact ⟨h.1, h.2⟩

/-- Witness for C1 at `y = 1`, `x = 2` on a solid-red framebuffer:
both duplicated rows hold `0xF800`. -/
theorem c1_witness :
    updateBackbuffer fbRed bbZero (2 * 1 * WIDTH + 2) = 0xF800 ∧
    updateBackbuffer fbRed bbZero ((2 * 1 + 1) * WIDTH + 2) = 0xF800 := by
  have h := c1_update_pixel_doubling fbRed bbZero 1 2 (by decide) (by decide)
  have hv : convertPixel (fbRed (4 * (1 * WIDTH + 2))) (fbRed (4 * (1 * WIDTH + 2) + 1))
      (fbRed (4 * (1 * WIDTH + 2) + 2)) = 0xF800 := by decide
  rw [hv] at h
  exact h

/-- C2 counterexample: the back-buffer does not hold 320 × 240 = 76800
16-bit pixels; `uint16_t backbuffer[160 * 240]` has 38400 16-bit
elements. -/
theorem c2_cex : backbufferLen = 38400 ∧ (backbufferLen == 76800) = false := by
  decide

/-- C2 (amended): the back-buffer holds 160 × 240 = 38400 16-bit
pixels (76800 bytes), and the DMA transfer count set in `update()` is
160 × 240, equal to the back-buffer element count; that count is the
one passed to `dma_channel_set_trans_count` on the bulk channel in
every `update()` trace. -/
theorem c2_backbuffer_size (don : Bool) (sys_clk_hz : Nat) :
    backbufferLen = 160 * 240 ∧
    updateDmaTransCount = backbufferLen ∧
    2 * backbufferLen = 76800 ∧
    Ev.dmaSetCount Chan.pd_st_dma updateDmaTransCount ∈ updateTrace don sys_clk_hz := by
  refine ⟨rfl, rfl, by decide, ?_⟩
  have hmem : Ev.dmaSetCount Chan.pd_st_dma updateDmaTransCount ∈ ramwrPre := by decide
  rw [updateTrace, ramwrTail]
  simp only [List.mem_append]
  exact Or.inr (Or.inl hmem)

/-- C3: `set_backlight` issues `SLPOUT` with a 5 ms delay and sets
`display_sleep := true` when brightness is 0 and the panel is awake;
issues `SLPOUT` with a 120 ms delay and sets `display_sleep := false`
whenever `display_sleep` is true; and otherwise issues no command and
leaves `display_sleep` unchanged. -/
theorem c3_set_backlight_cases (g : Nat → Nat) (s : DState) (b : Nat) :
    (b = 0 ∧ s.display_sleep = false →
      set_backlight g s b = ([(SLPOUT, 5)], ⟨s.display_on, true, g b⟩)) ∧
    (s.display_sleep = true →
      set_backlight g s b = ([(SLPOUT, 120)], ⟨s.display_on, false, g b⟩)) ∧
    (b ≠ 0 ∧ s.display_sleep = false →
      set_backlight g s b = ([], ⟨s.display_on, s.display_sleep, g b⟩)) := by
  refine ⟨?_, ?_, ?_⟩
  · rintro ⟨hb, hs⟩
    simp [set_backlight, hb, hs]
  · intro hs
    simp [set_backlight, hs]
  · rintro ⟨hb, hs⟩
    simp [set_backlight, hb, hs]

/-- Witness for C3: all three cases at concrete states and
brightnesses. -/
theorem c3_witness :
    set_backlight gEx ⟨true, false, 9⟩ 0 = ([(SLPOUT, 5)], ⟨true, true, 0⟩) ∧
    set_backlight gEx ⟨true, true, 9⟩ 5 = ([(SLPOUT, 120)], ⟨true, false, 65535⟩) ∧
    set_backlight gEx ⟨true, false, 9⟩ 5 = ([], ⟨true, false, 65535⟩) := by
  refine ⟨?_, ?_, ?_⟩
  · have h := (c3_set_backlight_cases gEx ⟨true, false, 9⟩ 0).1 ⟨rfl, rfl⟩
    rw [h]; decide
  · have h := (c3_set_backlight_cases gEx ⟨true, true, 9⟩ 5).2.1 rfl
    rw [h]; decide
  · have h := (c3_set_backlight_cases gEx ⟨true, false, 9⟩ 5).2.2 ⟨by decide, rfl⟩
    rw [h]; decide

/-- C7: the clock divisor recomputed on every `update()` equals the
exact integer ceiling of `sys_clk_hz / 50_000_000`, computed as
`(sys_clk_hz + max_pio_clk - 1) / max_pio_clk`; it is applied to the
shift state machine (the `clkdiv` event appears in every `update()`
trace); it is an upper bound witness and the least such `n`. -/
theorem c7_clk_div_ceiling (sys_clk_hz n : Nat) (don : Bool) :
    clk_div sys_clk_hz = (sys_clk_hz + 50000000 - 1) / 50000000 ∧
    sys_clk_hz ≤ clk_div sys_clk_hz * max_pio_clk ∧
    Ev.clkdiv (clk_div sys_clk_hz) ∈ updateTrace don sys_clk_hz ∧
    (sys_clk_hz ≤ n * max_pio_clk → clk_div sys_clk_hz ≤ n) := by
  have hmax : max_pio_clk = 50000000 := rfl
  refine ⟨by rw [clk_div, hmax], ?_, ?_, ?_⟩
  · rw [clk_div, hmax]
    omega
  · rw [updateTrace]
    simp only [List.mem_append]
    exact Or.inl (Or.inl (Or.inl (Or.inr (List.mem_singleton.mpr rfl))))
  · intro h
    rw [hmax] at h
    rw [clk_div, hmax]
    omega

/-- Witness for C7: a 125 MHz system clock yields divisor 3, and 3 is
both sufficient and minimal. -/
theorem c7_witness :
    clk_div 125000000 = 3 ∧
    125000000 ≤ clk_div 125000000 * max_pio_clk ∧
    clk_div 125000000 ≤ 3 := by
  have h := c7_clk_div_ceiling 125000000 3 true
  exact ⟨by decide, h.2.1, h.2.2.2 (by decide)⟩

/-- Any `set_backlight` call re-establishes the sleep invariant, given
that the gamma encoding maps brightness 0 to duty 0 (which the float
expression in the source does exactly). -/
theorem set_backlight_sleepInv (g : Nat → Nat) (hg : g 0 = 0) (s : DState) (b : Nat) :
    sleepInv (set_backlight g s b).2 := by
  by_cases h2 : s.display_sleep = true
  · simp [sleepInv, set_backlight, h2]
  · have h2f : s.display_sleep = false := by
      cases hsd : s.display_sleep
      · rfl
      · exact absurd hsd h2
    by_cases hb : b = 0
    · simp [sleepInv, set_backlight, hb, h2f, hg]
    · simp [sleepInv, set_backlight, hb, h2f]

/-- Each public operation preserves the sleep invariant. -/
theorem stepOp_sleepInv (g : Nat → Nat) (hg : g 0 = 0) (s : DState) (op : DOp) :
    sleepInv s → sleepInv (stepOp g s op) := by
  cases op with
  | updateOp =>
    intro h
    show sleepInv (updState s)
    unfold updState
    by_cases hd : s.display_on = false
    · rw [if_pos hd]
      exact h
    · rw [if_neg hd]
      exact h
  | backlightOp b =>
    intro _
    exact set_backlight_sleepInv g hg s b

/-- Any sequence of public operations preserves the sleep invariant. -/
theorem runOps_sleepInv (g : Nat → Nat) (hg : g 0 = 0) :
    ∀ (ops : List DOp) (s : DState), sleepInv s → sleepInv (runOps g s ops) := by
  intro ops
  induction ops with
  | nil => intro s h; exact h
  | cons op t ih => intro s h; exact ih _ (stepOp_sleepInv g hg s op h)

/-- C9: in every reachable driver state — after `init` from any
construction state, followed by any sequence of `update` /
`set_backlight` calls — `display_sleep = true` implies the backlight
PWM duty is 0, given that the gamma encoding maps brightness 0 to
duty 0 (exact in the source's float arithmetic). -/
theorem c9_sleep_invariant (g : Nat → Nat) (hg : g 0 = 0) (s0 : DState) (ops : List DOp) :
    sleepInv (runOps g (initState g s0) ops) := by
  apply runOps_sleepInv g hg
  unfold initState
  exact set_backlight_sleepInv g hg _ 255

/-- Witness for C9: after init and one `set_backlight(0)` the driver
is asleep with duty 0. -/
theorem c9_witness :
    (runOps gEx (initState gEx ⟨false, false, 3⟩) [DOp.backlightOp 0]).duty = 0 := by
  have h := c9_sleep_invariant gEx (by decide) ⟨false, false, 3⟩ [DOp.backlightOp 0]
  exact h (by decide)

/-- C10: `set_backlight(0)` while `display_sleep` is true wakes the
panel — it issues `SLPOUT` with a 120 ms delay, sets
`display_sleep := false`, and the duty remains 0; hence two
consecutive `set_backlight(0)` calls from the awake state toggle
`display_sleep` true then back to false with duty 0 throughout. -/
theorem c10_backlight_zero_wake (g : Nat → Nat) (s : DState) (hg : g 0 = 0) :
    (s.display_sleep = true →
      set_backlight g s 0 = ([(SLPOUT, 120)], ⟨s.display_on, false, 0⟩)) ∧
    (s.display_sleep = false →
      (set_backlight g s 0).2.display_sleep = true ∧
      (set_backlight g (set_backlight g s 0).2 0).2.display_sleep = false ∧
      (set_backlight g (set_backlight g s 0).2 0).2.duty = 0) := by
  constructor
  · intro hs
    simp [set_backlight, hs, hg]
  · intro hs
    simp [set_backlight, hs, hg]

/-- Witness for C10 at concrete states. -/
theorem c10_witness :
    set_backlight gEx ⟨true, true, 5⟩ 0 = ([(SLPOUT, 120)], ⟨true, false, 0⟩) ∧
    (set_backlight gEx ⟨true, false, 5⟩ 0).2.display_sleep = true ∧
    (set_backlight gEx (set_backlight gEx ⟨true, false, 5⟩ 0).2 0).2.display_sleep = false := by
  have h1 := (c10_backlight_zero_wake gEx ⟨true, true, 5⟩ (by decide)).1 rfl
  have h2 := (c10_backlight_zero_wake gEx ⟨true, false, 5⟩ (by decide)).2 rfl
  exact ⟨h1, h2.1, h2.2.1⟩

/-- The tracker ignores events in the violation state. -/
theorem csA_none (e : Ev) : csA none e = none := rfl

/-- Store events never move the tracker. -/
theorem csA_store (s : Option Bool) (i : Nat) : csA s (Ev.store i) = s := by
  cases s with
  | none => rfl
  | some a => rfl

/-- Folding the tracker over any trace from the violation state stays
in the violation state. -/
theorem cs_foldl_none : ∀ l : List Ev, List.foldl csA none l = none := by
  intro l
  induction l with
  | nil => rfl
  | cons e t ih =>
    show List.foldl csA (csA none e) t = none
    rw [csA_none]
    exact ih

/-- Folding the tracker over a trace of tracker-neutral events is the
identity. -/
theorem cs_foldl_skip :
    ∀ l : List Ev, (∀ e ∈ l, ∀ s : Option Bool, csA s e = s) →
      ∀ s : Option Bool, List.foldl csA s l = s := by
  intro l
  induction l with
  | nil => intro _ s; rfl
  | cons e t ih =>
    intro h s
    show List.foldl csA (csA s e) t = s
    rw [h e (List.mem_cons_self e t) s]
    exact ih (fun x hx s2 => h x (List.mem_cons_of_mem e hx) s2) s

/-- Every event of the conversion loop is a store. -/
theorem convStores_all_store : ∀ e ∈ convStores, ∃ i, e = Ev.store i := by
  intro e he
  simp only [convStores, List.mem_flatMap, List.mem_range, List.mem_cons,
    List.not_mem_nil, or_false] at he
  obtain ⟨r, _, x, _, h⟩ := he
  rcases h with h | h
  · exact ⟨_, h⟩
  · exact ⟨_, h⟩

/-- The conversion loop does not touch chip-select. -/
theorem cs_foldl_conv (s : Option Bool) : List.foldl csA s convStores = s :=
  cs_foldl_skip convStores
    (fun e he s2 => by
      obtain ⟨i, rfl⟩ := convStores_all_store e he
      exact csA_store s2 i) s

/-- A `command()` call starting with chip-select deasserted ends with
chip-select deasserted and no violation. -/
theorem cs_commandTr (op : Nat) (p : Option Nat) :
    List.foldl csA (some false) (commandTr op p) = some false := by
  cases p <;> rfl

/-- The `display_on` block of `update()` leaves the tracker at
chip-select deasserted. -/
theorem cs_dispOn (don : Bool) :
    List.foldl csA (some false) (dispOnEvs don) = some false := by
  cases don <;> rfl

/-- After a full `update()` trace the tracker is in the
chip-select-asserted state: `update` asserts chip-select for the
`RAMWR` command and never deasserts it. -/
theorem cs_after_update (don : Bool) (sys_clk_hz : Nat) :
    List.foldl csA (some false) (updateTrace don sys_clk_hz) = some true := by
  rw [updateTrace, List.foldl_append, List.foldl_append, List.foldl_append,
    List.foldl_append, cs_dispOn]
  have h1 : List.foldl csA (some false) [Ev.clkdiv (clk_div sys_clk_hz)] = some false := rfl
  rw [h1]
  have h2 : List.foldl csA (some false) updWaitEvs = some false := rfl
  rw [h2, cs_foldl_conv]
  rfl

/-- A `command()` call beginning while chip-select is still asserted
reaches the violation state at its chip-select assert. -/
theorem cs_command_from_true (op : Nat) (p : Option Nat) :
    List.foldl csA (some true) (commandTr op p) = none := by
  have hn : ∀ l : List Ev, List.foldl csA none l = none := cs_foldl_none
  cases p with
  | none =>
    show List.foldl csA none _ = none
    exact hn _
  | some len =>
    show List.foldl csA none _ = none
    exact hn _

/-- Folding a flat-mapped list of `command()` calls keeps the tracker
at chip-select deasserted. -/
theorem cs_flatMap_cmds :
    ∀ l : List (Nat × Option Nat),
      List.foldl csA (some false) (l.flatMap fun c => commandTr c.1 c.2) = some false := by
  intro l
  induction l with
  | nil => rfl
  | cons c t ih =>
    have he : ((c :: t).flatMap fun c => commandTr c.1 c.2)
        = commandTr c.1 c.2 ++ (t.flatMap fun c => commandTr c.1 c.2) := rfl
    rw [he, List.foldl_append, cs_commandTr]
    exact ih

/-- C4 counterexample: the concrete execution `update()` (display
already on, 125 MHz system clock) followed by `command(SLPOUT)` — the
exact pair `init()` produces via its trailing `set_backlight(255)` —
violates the chip-select sequencing invariant: the bulk pixel write
started by `update()` never deasserts chip-select, and the subsequent
`command()` begins with chip-select still asserted. -/
theorem c4_cex :
    csOK (updateTrace true 125000000 ++ commandTr SLPOUT none) = false := by
  unfold csOK
  rw [List.foldl_append, cs_after_update, cs_command_from_true]
  rfl

/-- C4 (amended): any sequence consisting only of `command()` calls
satisfies the chip-select sequencing invariant (each `command()`
asserts chip-select on entry and deasserts it before returning), but
the bulk pixel write started by `update()` does not deassert
chip-select — the deassert at the end of `update` is absent — so every
`command()` issued directly after an `update()` begins before the
previous chip-select assert was released, violating the invariant. -/
theorem c4_cs_sequencing (cmds : List (Nat × Option Nat)) (don : Bool)
    (sys_clk_hz op : Nat) (p : Option Nat) :
    csOK (cmds.flatMap fun c => commandTr c.1 c.2) = true ∧
    csOK (updateTrace don sys_clk_hz ++ commandTr op p) = false := by
  constructor
  · unfold csOK
    rw [cs_flatMap_cmds]
    rfl
  · unfold csOK
    rw [List.foldl_append, cs_after_update, cs_command_from_true]
    rfl

/-- C5: in every `update()` trace the blocking wait on the bulk DMA
channel and the FIFO drain precede every back-buffer store of the
conversion loop; and in two immediately successive `update()` calls,
between the first call's bulk DMA start (its last event) and the
second call's first back-buffer store there stand the second call's
bulk-DMA wait and FIFO drain, with no store in between. -/
theorem c5_backpressure (don1 : Bool) (s1 : Nat) (don2 : Bool) (s2 : Nat) :
    (∃ p0, updateTrace don1 s1 = p0 ++ updWaitEvs ++ convStores ++ ramwrTail ∧
      p0.all (fun e => !e.isStore) = true) ∧
    (∃ p q, updateTrace don1 s1 ++ updateTrace don2 s2
        = p ++ [Ev.dmaStart Chan.pd_st_dma] ++ q ++ updWaitEvs ++ convStores ++ ramwrTail ∧
      q.all (fun e => !e.isStore) = true) := by
  constructor
  · refine ⟨dispOnEvs don1 ++ [Ev.clkdiv (clk_div s1)], ?_, ?_⟩
    · rw [updateTrace]
    · cases don1 <;> rfl
  · refine ⟨dispOnEvs don1 ++ [Ev.clkdiv (clk_div s1)] ++ updWaitEvs ++ convStores ++ ramwrPre,
        dispOnEvs don2 ++ [Ev.clkdiv (clk_div s2)], ?_, ?_⟩
    · rw [updateTrace, updateTrace, ramwrTail]
      simp [List.append_assoc]
    · cases don2 <;> rfl

/-- C6 counterexample: the init sequence does not end with the
claimed order (`DISPON`, 100 ms, `MADCTL`, `CASET`, `RASET`,
`update`, full backlight): that list is not a suffix of the init
trace. -/
theorem c6_cex : List.isSuffixOf c6ClaimTail initTrace = false := by
  decide

/-- C6 (amended): the init sequence ends, in this order, with: turn
display on, 100 ms delay, column-address window 0–319, row-address
window 0–239 (each value transmitted as a big-endian 16-bit pair),
memory-access-control orientation bits `0xB0`, one full `update()`,
then backlight at full brightness — i.e. `MADCTL` follows the two
address-window commands rather than preceding them. -/
theorem c6_init_tail :
    List.isSuffixOf c6CodeTail initTrace = true ∧
    le16 (bswap16 0) ++ le16 (bswap16 319) = [0x00, 0x00, 0x01, 0x3F] ∧
    le16 (bswap16 0) ++ le16 (bswap16 239) = [0x00, 0x00, 0x00, 0xEF] ∧
    le16 (bswap16 319) = [319 / 256, 319 % 256] ∧
    le16 (bswap16 239) = [239 / 256, 239 % 256] ∧
    ROW_ORDER ||| SWAP_XY ||| SCAN_ORDER = 0xB0 := by
  decide
